import Mathlib

/-!
Shallow embedding of src/src/interview_tool.rs (interview-mcp).

The file models the instant registry (create_instant, elapsed_since), the
duration formatter, the shell-command tool (use_cmd) and the file-creation
tool (create_file), faithfully to the Rust source:

* The shared HashMap String -> InstantInfo behind Arc RwLock is modelled as an
  association list, with each handler written in state-passing style
  (state in, state out).  Lock acquisition cannot fail in this sequential
  model, so the lock-poisoning branches of the source are unreachable here.
* tokio time Instant is a monotonic timestamp, modelled as a Nat counting
  nanoseconds; Instant elapsed is truncated subtraction (Rust saturates at
  zero, as Nat subtraction does), and Duration as_secs divides by 10^9.
* uuid Uuid new_v4 produces a fresh random identifier; the model takes the
  generated identifier as an explicit parameter, with freshness as a
  hypothesis where a claim needs it.
* Rust format with 02 width zero-pads the decimal rendering of a number on
  the left with the digit 0 up to width two; decimal rendering of a Nat is
  Nat.repr, the model of the Display instance for u64.
-/

/-- Error codes of rmcp used by interview_tool.rs: INTERNAL_ERROR, -- |
INVALID_PARAMS, RESOURCE_NOT_FOUND and INVALID_REQUEST. -/
inductive ErrorCode where
  | internalError
  | invalidParams
  | resourceNotFound
  | invalidRequest
deriving DecidableEq, Repr

/-- rmcp ErrorData (aliased McpError in the source): an error code plus a
human-readable message. -/
structure McpError where
  code : ErrorCode
  message : String
deriving DecidableEq, Repr

/-- InstantInfo from interview_tool.rs: a monotonic start timestamp
(nanoseconds) and the caller-supplied label. -/
structure InstantInfo where
  start_instance : Nat
  label : String
deriving DecidableEq, Repr

/-- The registry HashMap String -> InstantInfo, as an association list with
unique keys maintained by assocInsert. -/
abbrev InstantMap := List (String × InstantInfo)

/-- HashMap get: the value bound to the first occurrence of the key. -/
def assocGet {β : Type} (m : List (String × β)) (k : String) : Option β :=
  match m with
  | [] => none
  | (k₁, v) :: rest => if k₁ = k then some v else assocGet rest k

/-- HashMap insert: replace the binding of the key when present, otherwise
append a new binding. -/
def assocInsert {β : Type} (m : List (String × β)) (k : String) (v : β) :
    List (String × β) :=
  match m with
  | [] => [(k, v)]
  | (k₁, v₁) :: rest =>
    if k₁ = k then (k, v) :: rest else (k₁, v₁) :: assocInsert rest k v

/-- A tool call outcome: CallToolResult::success with a list of text contents,
or an McpError. -/
abbrev ToolResult := Except McpError (List String)

/-- create_instant: generate a uuid (here the parameter uuid, modelling
uuid::Uuid::new_v4), take the write lock, insert the pair of the current
monotonic time and the label under the uuid, and answer with the single text
content "instance uuid is {uuid}". -/
def create_instant (uuid : String) (now : Nat) (label : String)
    (m : InstantMap) : ToolResult × InstantMap :=
  (Except.ok ["instance uuid is " ++ uuid],
   assocInsert m uuid ⟨now, label⟩)

/-- Rust zero-padded width-two numeric formatting, as in format with 02:
left-pad the decimal rendering with the digit 0 while shorter than two. -/
def rustFmtZeroPad2 (n : Nat) : String :=
  let s := Nat.repr n
  if s.length < 2 then ⟨List.replicate (2 - s.length) '0'⟩ ++ s else s

/-- format_duration_mm_ss from elapsed_since: take as_secs of the duration
(given in nanoseconds), then render total_secs / 60 and total_secs % 60 with
width-two zero padding, joined by a colon. -/
def format_duration_mm_ss (dNanos : Nat) : String :=
  let total_secs := dNanos / 1000000000
  let mins := total_secs / 60
  let secs := total_secs % 60
  rustFmtZeroPad2 mins ++ ":" ++ rustFmtZeroPad2 secs

/-- elapsed_since: take the read lock, look the instance id up; when found
answer with the two text contents "instance label :{label}" and
"time has elpased  {mm:ss}" (spelling and spacing as in the source), where
the duration is current monotonic time minus the stored start; when absent
fail with ErrorCode INVALID_PARAMS and the message
"not found anything through and isntance id {id}" (as in the source).
The registry is returned unchanged: the handler only reads. -/
def elapsed_since (instance_id : String) (now : Nat) (m : InstantMap) :
    ToolResult × InstantMap :=
  match assocGet m instance_id with
  | some info =>
    (Except.ok
      ["instance label :" ++ info.label,
       "time has elpased  " ++ format_duration_mm_ss (now - info.start_instance)],
     m)
  | none =>
    (Except.error
      ⟨ErrorCode.invalidParams,
       "not found anything through and isntance id " ++ instance_id⟩,
     m)

/-- N successive elapsed_since calls threaded through the registry state. -/
def iterate_elapsed (instance_id : String) (now : Nat) :
    Nat → InstantMap → InstantMap
  | 0, m => m
  | n + 1, m => iterate_elapsed instance_id now n (elapsed_since instance_id now m).2

/-- The bytes captured on a process stream, abstracted to whether they decode
as UTF-8: valid bytes carry the decoded string. String::from_utf8 followed by
unwrap_or of the empty string yields utf8OrEmpty below. -/
inductive Utf8Data where
  | valid (s : String)
  | invalid
deriving DecidableEq, Repr

/-- String::from_utf8(bytes).unwrap_or(String::new()). -/
def utf8OrEmpty : Utf8Data → String
  | .valid s => s
  | .invalid => ""

/-- Outcome of spawning sh -c cmd: either the launch itself fails with an OS
error message, or the process runs to completion with an exit status and the
captured stdout and stderr bytes. -/
inductive SpawnResult where
  | launchError (err : String)
  | completed (statusSuccess : Bool) (stdout stderr : Utf8Data)
deriving DecidableEq, Repr

/-- use_cmd: run sh -c cmd.  A launch failure maps to INVALID_PARAMS with the
message "invalid invoke cmd {cmd}, error: {err}".  On zero exit status the
decoded stdout (empty when not UTF-8) is the single text content.  On non-zero
exit status the call fails with INTERNAL_ERROR and the message
"error in excuting cmd  : {stderr}" (spelling and spacing as in the source),
stderr decoded the same way. -/
def use_cmd (cmd : String) (spawn : SpawnResult) : ToolResult :=
  match spawn with
  | .launchError err =>
    Except.error
      ⟨ErrorCode.invalidParams,
       "invalid invoke cmd " ++ cmd ++ ", error: " ++ err⟩
  | .completed true stdout _ => Except.ok [utf8OrEmpty stdout]
  | .completed false _ stderr =>
    Except.error
      ⟨ErrorCode.internalError,
       "error in excuting cmd  : " ++ utf8OrEmpty stderr⟩

/-- The filesystem as a map from paths to text contents, an association list
with the same discipline as the registry. -/
abbrev FileSystem := List (String × String)

/-- tokio fs File create, per its documentation: opens a file in write-only
mode, creating it when absent and truncating an existing file to empty; the
success of the call does not depend on whether the path already exists. -/
def fileCreate (fs : FileSystem) (path : String) : FileSystem :=
  assocInsert fs path ""

/-- File write_all of the whole text at position zero of the just-created
(hence empty) file: the path now holds exactly the text. -/
def fileWriteAll (fs : FileSystem) (path text : String) : FileSystem :=
  assocInsert fs path text

/-- Reading back the contents at a path (the success case of fs read). -/
def fsRead (fs : FileSystem) (path : String) : Option String :=
  assocGet fs path

/-- create_file: File create at file_path, then write_all of the context
bytes; on success the reply carries no content. -/
def create_file (file_path context : String) (fs : FileSystem) :
    ToolResult × FileSystem :=
  let fs₁ := fileCreate fs file_path
  (Except.ok [], fileWriteAll fs₁ file_path context)

/-- The formatting of one mm:ss field as the spec words it: the decimal
value, zero-padded on the left to at least two digits, i.e. one leading 0
exactly when the value is a single digit. -/
def specPad2 (n : Nat) : String :=
  if n < 10 then "0" ++ Nat.repr n else Nat.repr n

/-- The whole formatter as the spec words it: minutes are total seconds
div 60 (not capped at 59), seconds are total seconds mod 60, each zero-padded
to at least two digits, joined by a colon. -/
def specFormatMMSS (totalSecs : Nat) : String :=
  specPad2 (totalSecs / 60) ++ ":" ++ specPad2 (totalSecs % 60)

theorem toDigitsCore_length_le (f : Nat) :
    ∀ (n : Nat) (ds : List Char),
      ds.length ≤ (Nat.toDigitsCore 10 f n ds).length := by
  induction f with
  | zero => intro n ds; simp [Nat.toDigitsCore]
  | succ f ih =>
    intro n ds
    rw [Nat.toDigitsCore]
    by_cases h : n / 10 = 0
    · simp [h]
    · simp only [h, if_false]
      have h₁ := ih (n / 10) (Nat.digitChar (n % 10) :: ds)
      simp only [List.length_cons] at h₁
      omega

theorem toDigitsCore_length_succ_le (f n : Nat) (ds : List Char)
    (hf : 0 < f) :
    ds.length + 1 ≤ (Nat.toDigitsCore 10 f n ds).length := by
  cases f with
  | zero => exact absurd hf (Nat.lt_irrefl 0)
  | succ f =>
    rw [Nat.toDigitsCore]
    by_cases h : n / 10 = 0
    · simp [h]
    · simp only [h, if_false]
      have h₁ := toDigitsCore_length_le f (n / 10) (Nat.digitChar (n % 10) :: ds)
      simp only [List.length_cons] at h₁
      omega

/-- A natural number below ten renders as a single decimal digit. -/
theorem repr_length_of_lt_ten (n : Nat) (h : n < 10) :
    (Nat.repr n).length = 1 := by
  have h10 : n / 10 = 0 := Nat.div_eq_of_lt h
  simp [Nat.repr, Nat.toDigits, Nat.toDigitsCore, h10, List.asString,
    String.length]

/-- A natural number of at least ten renders with at least two decimal
digits. -/
theorem two_le_repr_length_of_ten_le (n : Nat) (h : 10 ≤ n) :
    2 ≤ (Nat.repr n).length := by
  have h10 : n / 10 ≠ 0 := by
    have : 1 ≤ n / 10 := (Nat.le_div_iff_mul_le (by norm_num)).2 (by omega)
    omega
  have hmain :
      2 ≤ (Nat.toDigitsCore 10 n (n / 10)
            [Nat.digitChar (n % 10)]).length := by
    have := toDigitsCore_length_succ_le n (n / 10)
      [Nat.digitChar (n % 10)] (by omega)
    simpa using this
  simpa [Nat.repr, Nat.toDigits, Nat.toDigitsCore, h10, List.asString,
    String.length] using hmain

/-- The Rust width-two zero padding agrees with the single-digit
characterization used by the spec. -/
theorem rustFmtZeroPad2_eq_specPad2 (n : Nat) :
    rustFmtZeroPad2 n = specPad2 n := by
  by_cases h : n < 10
  · have hlen : (Nat.repr n).length = 1 := repr_length_of_lt_ten n h
    simp [rustFmtZeroPad2, specPad2, hlen, h]
  · have hlen : 2 ≤ (Nat.repr n).length :=
      two_le_repr_length_of_ten_le n (by omega)
    simp [rustFmtZeroPad2, specPad2, h, Nat.not_lt.2 hlen]

theorem assocGet_insert_self {β : Type} (m : List (String × β)) (k : String)
    (v : β) : assocGet (assocInsert m k v) k = some v := by
  induction m with
  | nil => simp [assocInsert, assocGet]
  | cons p rest ih =>
    obtain ⟨k₁, v₁⟩ := p
    by_cases h : k₁ = k
    · simp [assocInsert, assocGet, h]
    · simp [assocInsert, assocGet, h, ih]

theorem assocGet_insert_ne {β : Type} (m : List (String × β)) (k k₂ : String)
    (v : β) (hne : k₂ ≠ k) :
    assocGet (assocInsert m k v) k₂ = assocGet m k₂ := by
  induction m with
  | nil => simp [assocInsert, assocGet, Ne.symm hne]
  | cons p rest ih =>
    obtain ⟨k₁, v₁⟩ := p
    by_cases h : k₁ = k
    · subst h
      simp [assocInsert, assocGet, Ne.symm hne]
    · simp [assocInsert, assocGet, h, ih]

theorem assocInsert_length_of_get_none {β : Type} (m : List (String × β))
    (k : String) (v : β) (h : assocGet m k = none) :
    (assocInsert m k v).length = m.length + 1 := by
  induction m with
  | nil => simp [assocInsert]
  | cons p rest ih =>
    obtain ⟨k₁, v₁⟩ := p
    by_cases hk : k₁ = k
    · simp [assocGet, hk] at h
    · simp only [assocGet, hk, if_false] at h
      simp [assocInsert, hk, ih h]

/-- elapsed_since never changes the registry: the second component of its
result is the input registry in both branches. -/
theorem elapsed_since_snd (instance_id : String) (now : Nat)
    (m : InstantMap) : (elapsed_since instance_id now m).2 = m := by
  unfold elapsed_since
  cases assocGet m instance_id <;> rfl

/-- C1: for every label, creating an instant and immediately querying it
succeeds: the response of create_instant carries the generated identifier,
and elapsed_since at that identifier returns the stored label together with
an elapsed duration rendered "00:00" (the elapsed time is a small
non-negative value, below one second). -/
theorem create_then_elapsed_immediate (uuid label : String) (m : InstantMap)
    (t now : Nat) (h₁ : t ≤ now) (h₂ : now - t < 1000000000) :
    (create_instant uuid t label m).1 =
      Except.ok ["instance uuid is " ++ uuid] ∧
    (elapsed_since uuid now (create_instant uuid t label m).2).1 =
      Except.ok ["instance label :" ++ label, "time has elpased  00:00"] := by
  refine ⟨rfl, ?_⟩
  have hget : assocGet (create_instant uuid t label m).2 uuid =
      some ⟨t, label⟩ := assocGet_insert_self m uuid ⟨t, label⟩
  have hfmt : format_duration_mm_ss (now - t) = "00:00" := by
    have h0 : (now - t) / 1000000000 = 0 := Nat.div_eq_of_lt h₂
    simp only [format_duration_mm_ss, h0]
    rfl
  simp [elapsed_since, hget, hfmt]

theorem create_then_elapsed_immediate_check :
    (0 : Nat) ≤ 5 ∧ 5 - 0 < 1000000000 ∧
    (elapsed_since "u1" 5 (create_instant "u1" 0 "q1" []).2).1 =
      Except.ok ["instance label :q1", "time has elpased  00:00"] :=
  ⟨by decide, by decide,
    (create_then_elapsed_immediate "u1" "q1" [] 0 5 (by decide) (by decide)).2⟩

/-- C2: the duration formatter renders minutes as total seconds div 60
(not capped at 59) and seconds as total seconds mod 60, each zero-padded to
at least two digits; in particular 0, 65, 309 and 3661 seconds render as
"00:00", "01:05", "05:09" and "61:01". -/
theorem format_duration_mm_ss_spec :
    (∀ s : Nat, format_duration_mm_ss (s * 1000000000) = specFormatMMSS s) ∧
    format_duration_mm_ss (0 * 1000000000) = "00:00" ∧
    format_duration_mm_ss (65 * 1000000000) = "01:05" ∧
    format_duration_mm_ss (309 * 1000000000) = "05:09" ∧
    format_duration_mm_ss (3661 * 1000000000) = "61:01" := by
  refine ⟨?_, by decide, by decide, by decide, by decide⟩
  intro s
  have hs : s * 1000000000 / 1000000000 = s := by omega
  simp [format_duration_mm_ss, specFormatMMSS, hs, rustFmtZeroPad2_eq_specPad2]

/-- C3: for an identifier absent from the registry, elapsed_since fails with
the not-found condition: the error message "not found anything through and
isntance id {X}" names X (reported under the INVALID_PARAMS code), and the
registry is returned unchanged by the failed call. -/
theorem elapsed_since_unknown_id (x : String) (now : Nat) (m : InstantMap)
    (h : assocGet m x = none) :
    elapsed_since x now m =
      (Except.error ⟨ErrorCode.invalidParams,
        "not found anything through and isntance id " ++ x⟩, m) := by
  simp [elapsed_since, h]

theorem elapsed_since_unknown_id_check :
    assocGet ([] : InstantMap) "ghost" = none ∧
    elapsed_since "ghost" 7 [] =
      (Except.error ⟨ErrorCode.invalidParams,
        "not found anything through and isntance id ghost"⟩, []) :=
  ⟨rfl, elapsed_since_unknown_id "ghost" 7 [] rfl⟩

/-- C4 fails on the code: the response text of create_instant is the sentence
"instance uuid is {uuid}", which is not the bare identifier. -/
theorem create_instant_response_ne_uuid :
    (create_instant "u1" 0 "L" []).1 = Except.ok ["instance uuid is u1"] ∧
    "instance uuid is u1" ≠ "u1" :=
  ⟨rfl, by decide⟩

/-- C4 amended: the successful result of create_instant is the single text
content "instance uuid is {I}" embedding the newly generated identifier I,
and the instant is stored under the bare identifier I, not under the full
response text. -/
theorem create_instant_response_embeds_uuid (uuid label : String) (t : Nat)
    (m : InstantMap) :
    (create_instant uuid t label m).1 =
      Except.ok ["instance uuid is " ++ uuid] ∧
    assocGet (create_instant uuid t label m).2 uuid = some ⟨t, label⟩ :=
  ⟨rfl, assocGet_insert_self m uuid ⟨t, label⟩⟩

/-- C5 fails on the code: the two lines returned on success read
"instance label :{label}" and "time has elpased  {mm:ss}", which differ from
the claimed "instance label: {label}" and "time has elapsed {mm:ss}". -/
theorem elapsed_since_lines_ne_claimed :
    (elapsed_since "id0" 0 [("id0", ⟨0, "q"⟩)]).1 =
      Except.ok ["instance label :q", "time has elpased  00:00"] ∧
    "instance label :q" ≠ "instance label: q" ∧
    "time has elpased  00:00" ≠ "time has elapsed 00:00" :=
  ⟨rfl, by decide, by decide⟩

/-- C5 amended: a successful elapsed_since returns exactly two text lines,
the first "instance label :{label}" (one space before the colon, none after)
and the second "time has elpased  {mm:ss}" (spelled elpased, two spaces),
for the stored label and the formatted elapsed duration. -/
theorem elapsed_since_two_lines (instance_id : String) (now : Nat)
    (m : InstantMap) (info : InstantInfo)
    (h : assocGet m instance_id = some info) :
    (elapsed_since instance_id now m).1 =
      Except.ok ["instance label :" ++ info.label,
        "time has elpased  " ++
          format_duration_mm_ss (now - info.start_instance)] := by
  simp [elapsed_since, h]

theorem elapsed_since_two_lines_check :
    assocGet [("a", (⟨0, "q"⟩ : InstantInfo))] "a" = some ⟨0, "q"⟩ ∧
    (elapsed_since "a" 0 [("a", ⟨0, "q"⟩)]).1 =
      Except.ok ["instance label :q", "time has elpased  00:00"] :=
  ⟨rfl, elapsed_since_two_lines "a" 0 [("a", ⟨0, "q"⟩)] ⟨0, "q"⟩ rfl⟩

/-- C6: with a fresh identifier (as produced by uuid new_v4), create_instant
adds exactly one entry, stored under the fresh identifier, and every entry
already present keeps its label and timestamp. -/
theorem create_instant_preserves_entries (uuid label : String) (t : Nat)
    (m : InstantMap) (h : assocGet m uuid = none) :
    assocGet (create_instant uuid t label m).2 uuid = some ⟨t, label⟩ ∧
    (create_instant uuid t label m).2.length = m.length + 1 ∧
    ∀ k info, assocGet m k = some info →
      assocGet (create_instant uuid t label m).2 k = some info := by
  refine ⟨assocGet_insert_self m uuid ⟨t, label⟩,
    assocInsert_length_of_get_none m uuid ⟨t, label⟩ h, ?_⟩
  intro k info hk
  have hne : k ≠ uuid := by
    intro he
    subst he
    rw [hk] at h
    exact Option.noConfusion h
  calc assocGet (create_instant uuid t label m).2 k
      = assocGet m k := assocGet_insert_ne m uuid k ⟨t, label⟩ hne
    _ = some info := hk

theorem create_instant_preserves_entries_check :
    assocGet [("a", (⟨1, "x"⟩ : InstantInfo))] "b" = none ∧
    assocGet (create_instant "b" 2 "y" [("a", ⟨1, "x"⟩)]).2 "b" =
      some ⟨2, "y"⟩ ∧
    (create_instant "b" 2 "y" [("a", ⟨1, "x"⟩)]).2.length = 2 ∧
    assocGet (create_instant "b" 2 "y" [("a", ⟨1, "x"⟩)]).2 "a" =
      some ⟨1, "x"⟩ := by
  have h := create_instant_preserves_entries "b" "y" 2 [("a", ⟨1, "x"⟩)] rfl
  exact ⟨rfl, h.1, h.2.1, h.2.2 "a" ⟨1, "x"⟩ rfl⟩

/-- C7: elapsed_since is read-only: any number of successive calls leaves the
registry exactly as it was, every entry keeps its binding, and a further call
after the iteration returns the same result as a call on the initial
registry. -/
theorem elapsed_since_readonly (instance_id : String) (now n : Nat)
    (m : InstantMap) :
    iterate_elapsed instance_id now n m = m ∧
    (∀ k, assocGet (iterate_elapsed instance_id now n m) k = assocGet m k) ∧
    (elapsed_since instance_id now (iterate_elapsed instance_id now n m)).1 =
      (elapsed_since instance_id now m).1 := by
  have hiter : iterate_elapsed instance_id now n m = m := by
    induction n with
    | zero => rfl
    | succ n ih => rw [iterate_elapsed, elapsed_since_snd, ih]
  exact ⟨hiter, fun k => by rw [hiter], by rw [hiter]⟩

/-- C8: use_cmd returns the captured stdout text exactly on zero exit status,
fails with INVALID_PARAMS when the command cannot be launched, and fails with
INTERNAL_ERROR carrying the captured stderr text on non-zero exit status. -/
theorem use_cmd_cases (cmd out err osErr : String) (other : Utf8Data) :
    use_cmd cmd (SpawnResult.completed true (Utf8Data.valid out) other) =
      Except.ok [out] ∧
    use_cmd cmd (SpawnResult.launchError osErr) =
      Except.error ⟨ErrorCode.invalidParams,
        "invalid invoke cmd " ++ cmd ++ ", error: " ++ osErr⟩ ∧
    use_cmd cmd (SpawnResult.completed false other (Utf8Data.valid err)) =
      Except.error ⟨ErrorCode.internalError,
        "error in excuting cmd  : " ++ err⟩ :=
  ⟨rfl, rfl, rfl⟩

/-- C9: when the captured bytes are not valid UTF-8, use_cmd substitutes the
empty string: a zero-exit command with non-text stdout returns an empty text
content, and a non-zero-exit command with non-text stderr returns an internal
error whose detail after the fixed message text is empty. -/
theorem use_cmd_invalid_utf8 (cmd : String) (other : Utf8Data) :
    use_cmd cmd (SpawnResult.completed true Utf8Data.invalid other) =
      Except.ok [""] ∧
    use_cmd cmd (SpawnResult.completed false other Utf8Data.invalid) =
      Except.error ⟨ErrorCode.internalError, "error in excuting cmd  : "⟩ :=
  ⟨rfl, rfl⟩

/-- C10: create_file succeeds on a path that already holds a file, and the
old contents are replaced: reading the path afterwards yields exactly the
new text. -/
theorem create_file_overwrites (file_path old context : String)
    (fs : FileSystem) (h : fsRead fs file_path = some old) :
    (create_file file_path context fs).1 = Except.ok [] ∧
    fsRead (create_file file_path context fs).2 file_path = some context :=
  ⟨rfl, assocGet_insert_self _ file_path context⟩

theorem create_file_overwrites_check :
    fsRead [("/tmp/a.txt", "old")] "/tmp/a.txt" = some "old" ∧
    (create_file "/tmp/a.txt" "new" [("/tmp/a.txt", "old")]).1 =
      Except.ok [] ∧
    fsRead (create_file "/tmp/a.txt" "new" [("/tmp/a.txt", "old")]).2
      "/tmp/a.txt" = some "new" := by
  have h :=
    create_file_overwrites "/tmp/a.txt" "old" "new" [("/tmp/a.txt", "old")] rfl
  exact ⟨rfl, h.1, h.2⟩
